import Mathlib

/-!
Verification of the in-memory persistence store (`src/index.js`,
class `Persistence`).

The JavaScript code is shallowly embedded: JavaScript values become the
inductive `JsVal`, the mutable array `this.data` becomes a `List JsVal`
threaded through each operation, and promise resolution / rejection (and
synchronous throws) become `Except Failure`.

Two JavaScript subtleties are modelled explicitly because the behaviour
of the store depends on them:

* `list (id)` begins with `if (id)`, so `id == 0` (and an omitted `id`)
  takes the "no id" branch and resolves with `this.data` itself.

* when `list` resolves with `this.data`, the value `el` held by
  `update` / `replace` / `delete` is an alias of the mutable array, so
  the value those operations resolve with reflects the mutation they
  performed after the lookup.  In the pure embedding this is encoded by
  resolving with the post-mutation array whenever `id = 0`.
-/

/-- JavaScript values, as far as the store manipulates them: `null`,
`undefined`, booleans, numbers (integral only: the store never produces
fractional values), strings, plain objects (ordered field lists) and
arrays. -/
inductive JsVal where
  | null
  | undefined
  | bool (b : Bool)
  | num (n : Int)
  | str (s : String)
  | obj (fields : List (String × JsVal))
  | arr (elems : List JsVal)

/-- JavaScript truthiness. -/
def truthy : JsVal → Bool
  | .null => false
  | .undefined => false
  | .bool b => b
  | .num n => n != 0
  | .str s => !s.isEmpty
  | .obj _ => true
  | .arr _ => true

/-- First binding of key `k` in an ordered field list. -/
def lookupF (fs : List (String × JsVal)) (k : String) : Option JsVal :=
  (fs.find? (fun p => p.1 == k)).map (fun p => p.2)

/-- Property read `v.k`.  Reading a property of `null` or `undefined`
throws a `TypeError`; a missing property on an object reads as
`undefined`; primitives and arrays have none of the properties the store
reads (it only ever reads `valid`), so the read yields `undefined`. -/
def getField : JsVal → String → Except String JsVal
  | .null, _ => .error "TypeError: Cannot read properties of null"
  | .undefined, _ => .error "TypeError: Cannot read properties of undefined"
  | .obj fs, k => .ok ((lookupF fs k).getD .undefined)
  | _, _ => .ok .undefined

/-- The `CreateDataProperty` step of an object literal: a repeated key keeps
its original position but takes the new value; a fresh key is appended.
(JavaScript objects never hold a key twice, so replacing the first
occurrence is exact.) -/
def insertField : List (String × JsVal) → String → JsVal → List (String × JsVal)
  | [], k, v => [(k, v)]
  | p :: rest, k, v => if p.1 == k then (k, v) :: rest else p :: insertField rest k v

/-- Object spread `{ ...acc, ...v }` restricted to the target fields of
`acc`: spreading an object copies its fields in order, spreading an
array copies its elements under their index keys, spreading a string
copies its characters under their index keys, and spreading `null`,
`undefined` or another primitive copies nothing. -/
def spreadInto (acc : List (String × JsVal)) : JsVal → List (String × JsVal)
  | .obj fs => fs.foldl (fun a p => insertField a p.1 p.2) acc
  | .arr es => es.enum.foldl (fun a p => insertField a (toString p.1) p.2) acc
  | .str s => s.toList.enum.foldl (fun a p => insertField a (toString p.1) (.str (String.mk [p.2]))) acc
  | _ => acc

/-- The object literal `{ ...a, ...b }` used by `update`. -/
def mergeSpread (a b : JsVal) : JsVal :=
  .obj (spreadInto (spreadInto [] a) b)

/-- Array element assignment `arr[i] = v`: in range it overwrites, past
the end it extends the array with holes (which read back as
`undefined`). -/
def jsSet (l : List JsVal) (i : Nat) (v : JsVal) : List JsVal :=
  if i < l.length then l.set i v
  else l ++ List.replicate (i - l.length) .undefined ++ [v]

/-- A JavaScript `Error` object the way the store builds them: a
message plus the `status` and `data` properties it attaches. -/
structure ErrObj where
  message : String
  status : Nat
  data : JsVal

/-- The `Resource not found` error built in `list`. -/
def notFoundErr : ErrObj :=
  { message := "Resource not found", status := 404, data := .obj [] }

/-- The `Invalid data` error built in `validate`. -/
def invalidDataErr : ErrObj :=
  { message := "Invalid data", status := 400, data := .obj [("valid", .str "should be true")] }

/-- How an operation can fail: a thrown `TypeError` (surfaced either as
a synchronous throw or, inside the `async` methods, as a rejection with
the caught exception) or a rejection with one of the store's `Error`
objects. -/
inductive Failure where
  | typeErr (msg : String)
  | jsErr (e : ErrObj)

/-- Method `validate (data)`: `if (data.valid) return null` — the property read
can throw — otherwise build and return the 400 error.  `.ok none` is the
`null` verdict (valid), `.ok (some e)` is the returned error object,
`.error msg` is a thrown `TypeError`. -/
def validate (data : JsVal) : Except String (Option ErrObj) :=
  match getField data "valid" with
  | .error msg => .error msg
  | .ok v => if truthy v then .ok none else .ok (some invalidDataErr)

/-- The store: `this.data` (the collection) and the unused `this.model`
handle kept from construction. -/
structure Persistence where
  data : List JsVal
  model : JsVal

/-- Constructor `new Persistence (model)`: empty collection, model retained. -/
def Persistence.new (model : JsVal) : Persistence :=
  ⟨[], model⟩

/-- Method `list (id)`.  `none` is an omitted argument.  `if (id)` makes both
an omitted id and `id = 0` resolve with the whole array; otherwise
`const el = this.data[id]` is looked up and must be truthy, else the 404
rejection. -/
def Persistence.list (p : Persistence) : Option Nat → Except ErrObj JsVal
  | some i =>
    if i ≠ 0 then
      let el := (p.data[i]?).getD .undefined
      if truthy el then .ok el else .error notFoundErr
    else .ok (.arr p.data)
  | none => .ok (.arr p.data)

/-- Method `create (data)`: validate (the call can throw), reject on a
returned error, otherwise push and resolve with `this.data.length - 1`.
The result is the resolved value or failure, paired with the state of
the store afterwards. -/
def Persistence.create (p : Persistence) (data : JsVal) : Except Failure Nat × Persistence :=
  match validate data with
  | .error msg => (.error (.typeErr msg), p)
  | .ok (some e) => (.error (.jsErr e), p)
  | .ok none =>
    let d := p.data ++ [data]
    (.ok (d.length - 1), ⟨d, p.model⟩)

/-- Method `update (id, data)`: look up via `list`, validate the literal
`{ ...el, ...data }`, then assign it at `id` and resolve with `el`.
When `id = 0`, `el` is `this.data` itself, so the resolved value is the
array after the assignment. -/
def Persistence.update (p : Persistence) (id : Nat) (data : JsVal) : Except Failure JsVal × Persistence :=
  match p.list (some id) with
  | .error e => (.error (.jsErr e), p)
  | .ok el =>
    let merged := mergeSpread el data
    match validate merged with
    | .error msg => (.error (.typeErr msg), p)
    | .ok (some e) => (.error (.jsErr e), p)
    | .ok none =>
      let d := jsSet p.data id merged
      (.ok (if id = 0 then .arr d else el), ⟨d, p.model⟩)

/-- Method `replace (id, data)`: look up via `list`, validate `data` itself
(the call can throw; the `try` turns the throw into a rejection), then
assign `data` at `id` and resolve with `el`.  When `id = 0`, `el` is
`this.data` itself, so the resolved value is the array after the
assignment. -/
def Persistence.replace (p : Persistence) (id : Nat) (data : JsVal) : Except Failure JsVal × Persistence :=
  match p.list (some id) with
  | .error e => (.error (.jsErr e), p)
  | .ok el =>
    match validate data with
    | .error msg => (.error (.typeErr msg), p)
    | .ok (some e) => (.error (.jsErr e), p)
    | .ok none =>
      let d := jsSet p.data id data
      (.ok (if id = 0 then .arr d else el), ⟨d, p.model⟩)

/-- Method `delete (id)`: look up via `list`, `splice (id, 1)`, resolve with
`el`.  When `id = 0`, `el` is `this.data` itself, so the resolved value
is the array after the splice. -/
def Persistence.delete (p : Persistence) (id : Nat) : Except Failure JsVal × Persistence :=
  match p.list (some id) with
  | .error e => (.error (.jsErr e), p)
  | .ok el =>
    let d := p.data.eraseIdx id
    (.ok (if id = 0 then .arr d else el), ⟨d, p.model⟩)

/-- A record the reference validation policy accepts: its `valid`
property reads without throwing and is truthy. -/
def recordValid (el : JsVal) : Bool :=
  match getField el "valid" with
  | .ok v => truthy v
  | .error _ => false

/-- Every record held by the store passes the validation policy. -/
def storeValid (p : Persistence) : Bool :=
  p.data.all recordValid

/-- The record `{valid: true, name: "x"}` of the end-to-end scenario. -/
def recX : JsVal := .obj [("valid", .bool true), ("name", .str "x")]

/-- The partial update `{name: "y"}` of the end-to-end scenario. -/
def dataY : JsVal := .obj [("name", .str "y")]

/-- The record `{valid: true, name: "y"}`. -/
def recY : JsVal := .obj [("valid", .bool true), ("name", .str "y")]

/-- The record `{a: 1, valid: true}` of the merge test in the spec. -/
def recA : JsVal := .obj [("a", .num 1), ("valid", .bool true)]

/-- The record `{b: 2, valid: true}` of the merge test in the spec. -/
def dataB : JsVal := .obj [("b", .num 2), ("valid", .bool true)]

/-- The record `{valid: true, name: "z"}`. -/
def recZ : JsVal := .obj [("valid", .bool true), ("name", .str "z")]

/-- A record passes `recordValid` exactly when `validate` returns the
`null` verdict. -/
theorem recordValid_iff_validate (d : JsVal) :
    recordValid d = true ↔ validate d = .ok none := by
  unfold recordValid validate
  cases h : getField d "valid" with
  | ok v => cases hv : truthy v <;> simp [hv]
  | error m => simp

/-- Evaluating `list (some i)` for nonzero `i` succeeds exactly on a truthy element. -/
theorem list_some_pos (p : Persistence) (i : Nat) (h : i ≠ 0) :
    p.list (some i)
      = (if truthy ((p.data[i]?).getD .undefined) then
           .ok ((p.data[i]?).getD .undefined)
         else .error notFoundErr) := by
  simp [Persistence.list, h]

/-- Looking up an occupied nonzero index resolves with the element. -/
theorem list_some_occupied (p : Persistence) (i : Nat) (el : JsVal)
    (h : i ≠ 0) (hel : p.data[i]? = some el) (htr : truthy el = true) :
    p.list (some i) = .ok el := by
  rw [list_some_pos p i h, hel]
  simp [htr]

/-- C4: for every store state, `list` with id `0` — or with the id
omitted — resolves with the entire collection in insertion order (never
with the record at position `0`, and never rejecting), because `id == 0`
is falsy and takes the "no id" branch. -/
theorem C4_list_falsy_id (p : Persistence) :
    p.list (some 0) = .ok (.arr p.data) ∧ p.list none = .ok (.arr p.data) :=
  ⟨rfl, rfl⟩

/-- C2 counterexample: on a freshly constructed store, `list (0)` does
not reject with NotFound as the claim states: it resolves with the whole
(empty) collection, because `id == 0` is falsy. -/
theorem C2_counterexample :
    (Persistence.new (.obj [])).list (some 0) = .ok (.arr []) ∧
    (Persistence.new (.obj [])).list (some 0) ≠ .error notFoundErr :=
  ⟨rfl, fun h => Except.noConfusion h⟩

/-- C2 amended: for every store state and every nonzero id not occupied
by a (truthy) record, `list`, `update`, `replace` and `delete` all
reject with the very NotFound error `list` builds — message `Resource
not found`, status `404`, empty detail payload — and leave the store
unchanged.  (Id `0` is excluded: `list` treats it as "no id", so it
never produces NotFound.) -/
theorem C2_amended (p : Persistence) (id : Nat) (data : JsVal)
    (h0 : id ≠ 0)
    (hocc : truthy ((p.data[id]?).getD .undefined) = false) :
    p.list (some id) = .error notFoundErr ∧
    p.update id data = (.error (.jsErr notFoundErr), p) ∧
    p.replace id data = (.error (.jsErr notFoundErr), p) ∧
    p.delete id = (.error (.jsErr notFoundErr), p) ∧
    notFoundErr.status = 404 ∧ notFoundErr.data = .obj [] := by
  have hl : p.list (some id) = .error notFoundErr := by
    rw [list_some_pos p id h0, hocc]
    simp
  refine ⟨hl, ?_, ?_, ?_, rfl, rfl⟩ <;>
    simp [Persistence.update, Persistence.replace, Persistence.delete, hl]

/-- C2 witness: the amended statement at the empty store, id `1`. -/
theorem C2_witness :
    (Persistence.new .null).list (some 1) = .error notFoundErr ∧
    (Persistence.new .null).update 1 .null = (.error (.jsErr notFoundErr), Persistence.new .null) ∧
    (Persistence.new .null).replace 1 .null = (.error (.jsErr notFoundErr), Persistence.new .null) ∧
    (Persistence.new .null).delete 1 = (.error (.jsErr notFoundErr), Persistence.new .null) ∧
    notFoundErr.status = 404 ∧ notFoundErr.data = .obj [] :=
  C2_amended (Persistence.new .null) 1 .null (by decide) rfl

/-- C1 counterexample: in the claimed end-to-end scenario the third step
already deviates: after `create({valid:true,name:"x"})` resolves with
`0`, the call `update(0, {name:"y"})` rejects with the InvalidData error
(status 400) instead of resolving with `{valid:true,name:"x"}`, because
`list(0)` hands `update` the whole array, whose spread has no `valid`
field. -/
theorem C1_counterexample :
    ((Persistence.new (.obj [])).create recX).1 = .ok 0 ∧
    (((Persistence.new (.obj [])).create recX).2.update 0 dataY).1
      = .error (.jsErr invalidDataErr) ∧
    (((Persistence.new (.obj [])).create recX).2.update 0 dataY).1 ≠ .ok recX :=
  ⟨rfl, rfl, fun h => Except.noConfusion h⟩

/-- C1 amended: the actual end-to-end behaviour.  On a fresh store,
`create({valid:true,name:"x"})` resolves with `0` and `list()` with
`[{valid:true,name:"x"}]`, as claimed; but `update(0,{name:"y"})`
rejects with InvalidData and leaves the record untouched (id `0` is
falsy, so the merge candidate is built from the whole array and lacks
`valid`), and `delete(0)` does remove the record but resolves with the
emptied collection `[]` (the value `list(0)` produced is the array
itself, mutated by the splice), after which `list()` resolves with
`[]`. -/
theorem C1_amended :
    ((Persistence.new (.obj [])).create recX).1 = .ok 0 ∧
    ((Persistence.new (.obj [])).create recX).2.list none = .ok (.arr [recX]) ∧
    ((Persistence.new (.obj [])).create recX).2.update 0 dataY
      = (.error (.jsErr invalidDataErr), ((Persistence.new (.obj [])).create recX).2) ∧
    ((Persistence.new (.obj [])).create recX).2.delete 0
      = (.ok (.arr []), Persistence.new (.obj [])) ∧
    (((Persistence.new (.obj [])).create recX).2.delete 0).2.list none = .ok (.arr []) :=
  ⟨rfl, rfl, rfl, rfl, rfl⟩

/-- A value whose `valid` property reads as a truthy value is an object
(primitives read `undefined` there, `null` and `undefined` throw), and
objects are truthy. -/
theorem truthy_of_valid_field (r v : JsVal)
    (hv : getField r "valid" = .ok v) (ht : truthy v = true) :
    truthy r = true := by
  cases r with
  | obj fields => rfl
  | arr elems => rfl
  | null => exact Except.noConfusion hv
  | undefined => exact Except.noConfusion hv
  | bool b => cases Except.ok.inj hv; exact Bool.noConfusion ht
  | num n => cases Except.ok.inj hv; exact Bool.noConfusion ht
  | str s => cases Except.ok.inj hv; exact Bool.noConfusion ht

/-- C3 counterexample: on an empty store the claim fails: `create`
resolves with id `0`, and `list (0)` then resolves with the whole
one-element collection `[r]`, not with `r` itself, because `id == 0` is
falsy. -/
theorem C3_counterexample :
    ((Persistence.new (.obj [])).create recX).1 = .ok 0 ∧
    ((Persistence.new (.obj [])).create recX).2.list (some 0) = .ok (.arr [recX]) ∧
    ((Persistence.new (.obj [])).create recX).2.list (some 0) ≠ .ok recX :=
  ⟨rfl, rfl, fun h => JsVal.noConfusion (Except.ok.inj h)⟩

/-- C3 amended: for every record whose `valid` field is truthy and every
store state, `create` appends the record unchanged at the end and
resolves with the pre-insertion length as the new id; when the store was
nonempty (so the returned id is nonzero), a subsequent `list` of that id
resolves with the record.  On an empty store the returned id is `0`,
which `list` treats as "no id", resolving with the whole collection
instead. -/
theorem C3_amended (p : Persistence) (r v : JsVal)
    (hv : getField r "valid" = .ok v) (ht : truthy v = true) :
    (p.create r).1 = .ok p.data.length ∧
    (p.create r).2.data = p.data ++ [r] ∧
    (p.data.length ≠ 0 →
      (p.create r).2.list (some p.data.length) = .ok r) := by
  have hval : validate r = .ok none := by
    simp [validate, hv, ht]
  have hc : p.create r = (.ok p.data.length, ⟨p.data ++ [r], p.model⟩) := by
    simp [Persistence.create, hval]
  refine ⟨by simp [hc], by simp [hc], fun hn => ?_⟩
  rw [hc]
  exact list_some_occupied _ _ r hn (List.getElem?_concat_length p.data r)
    (truthy_of_valid_field r v hv ht)

/-- C3 witness: the amended statement on the one-record store
`[{valid:true,name:"x"}]`, creating `{valid:true,name:"y"}`. -/
theorem C3_witness :
    ((⟨[recX], .null⟩ : Persistence).create recY).1 = .ok 1 ∧
    ((⟨[recX], .null⟩ : Persistence).create recY).2.data = [recX, recY] ∧
    ((⟨[recX], .null⟩ : Persistence).create recY).2.list (some 1) = .ok recY := by
  have h := C3_amended ⟨[recX], .null⟩ recY (.bool true) rfl rfl
  exact ⟨h.1, h.2.1, h.2.2 (by decide)⟩

/-- C5: for every store state and every record whose `valid` property
reads as a falsy value, `validate` returns (not throws) the InvalidData
error — status `400`, detail `{valid: "should be true"}` — and `create`
rejects with that same error, leaving the store (and so the collection
and its length) unchanged. -/
theorem C5_create_invalid (p : Persistence) (r v : JsVal)
    (hv : getField r "valid" = .ok v) (ht : truthy v = false) :
    validate r = .ok (some invalidDataErr) ∧
    p.create r = (.error (.jsErr invalidDataErr), p) ∧
    invalidDataErr.status = 400 ∧
    invalidDataErr.data = .obj [("valid", .str "should be true")] := by
  have hval : validate r = .ok (some invalidDataErr) := by
    simp [validate, hv, ht]
  exact ⟨hval, by simp [Persistence.create, hval], rfl, rfl⟩

/-- C5 witness: the statement at the record `{valid: false}` on the
one-record store `[{valid:true,name:"x"}]`. -/
theorem C5_witness :
    validate (.obj [("valid", .bool false)]) = .ok (some invalidDataErr) ∧
    (⟨[recX], .null⟩ : Persistence).create (.obj [("valid", .bool false)])
      = (.error (.jsErr invalidDataErr), ⟨[recX], .null⟩) ∧
    invalidDataErr.status = 400 ∧
    invalidDataErr.data = .obj [("valid", .str "should be true")] :=
  C5_create_invalid ⟨[recX], .null⟩ (.obj [("valid", .bool false)]) (.bool false) rfl rfl

/-- Assignment at an index that is in range is a plain overwrite. -/
theorem jsSet_of_lt (l : List JsVal) (i : Nat) (v : JsVal) (h : i < l.length) :
    jsSet l i v = l.set i v := by
  simp [jsSet, h]

/-- An index `list` accepts lies in range, unless it is the falsy `0`. -/
theorem list_ok_index (p : Persistence) (i : Nat) (el : JsVal)
    (h : p.list (some i) = .ok el) : i < p.data.length ∨ i = 0 := by
  by_cases h0 : i = 0
  · exact Or.inr h0
  · left
    by_contra hge
    have hn : p.data[i]? = none := List.getElem?_eq_none (by omega)
    rw [list_some_pos p i h0, hn] at h
    simp [truthy] at h

/-- C7 counterexample: at the occupied id `0` of the one-record store
`[{valid:true,name:"x"}]`, `replace(0, {valid:true,name:"z"})` does not
resolve with the previous record: it resolves with the whole mutated
collection `[{valid:true,name:"z"}]`, because the value `list(0)` hands
back is the array itself. -/
theorem C7_counterexample :
    ((⟨[recX], .obj []⟩ : Persistence).replace 0 recZ).1 = .ok (.arr [recZ]) ∧
    ((⟨[recX], .obj []⟩ : Persistence).replace 0 recZ).1 ≠ .ok recX :=
  ⟨rfl, fun h => JsVal.noConfusion (Except.ok.inj h)⟩

/-- C7 amended: for every occupied id other than `0` (a truthy record
sits at that index), `replace(id, data)` validates `data` as-is, without
merging; when `validate` returns an error it rejects with exactly that
error and leaves the store unchanged (likewise when `validate` throws);
when `data` is valid it stores `data` verbatim at `id`, discarding the
prior record, and resolves with the previous record value.  At id `0`
the lookup hands back the whole array and the resolved value is the
mutated collection instead. -/
theorem C7_amended (p : Persistence) (id : Nat) (data el : JsVal)
    (h0 : id ≠ 0) (hel : p.data[id]? = some el) (htr : truthy el = true) :
    (∀ e, validate data = .ok (some e) →
      p.replace id data = (.error (.jsErr e), p)) ∧
    (∀ m, validate data = .error m →
      p.replace id data = (.error (.typeErr m), p)) ∧
    (validate data = .ok none →
      p.replace id data = (.ok el, ⟨p.data.set id data, p.model⟩)) := by
  have hl := list_some_occupied p id el h0 hel htr
  have hlt : id < p.data.length := by
    rcases List.getElem?_eq_some.mp hel with ⟨h, _⟩
    exact h
  refine ⟨fun e he => ?_, fun m hm => ?_, fun hok => ?_⟩
  · simp [Persistence.replace, hl, he]
  · simp [Persistence.replace, hl, hm]
  · simp [Persistence.replace, hl, hok, jsSet_of_lt p.data id data hlt, h0]

/-- C7 witness: the amended statement on `[{valid:true,name:"x"},
{a:1,valid:true}]`, replacing id `1` with `{b:2,valid:true}`. -/
theorem C7_witness :
    (⟨[recX, recA], .null⟩ : Persistence).replace 1 dataB
      = (.ok recA, ⟨[recX, dataB], .null⟩) := by
  have h := C7_amended ⟨[recX, recA], .null⟩ 1 dataB recA (by decide) rfl rfl
  exact h.2.2 rfl

/-- C8 counterexample: at the occupied id `0` of the two-record store,
`delete(0)` does remove the first record, but it does not resolve with
the removed record's prior value: it resolves with the whole mutated
collection, because the value `list(0)` hands back is the array itself,
already shortened by the splice. -/
theorem C8_counterexample :
    ((⟨[recX, recY], .obj []⟩ : Persistence).delete 0).1 = .ok (.arr [recY]) ∧
    ((⟨[recX, recY], .obj []⟩ : Persistence).delete 0).1 ≠ .ok recX :=
  ⟨rfl, fun h => JsVal.noConfusion (Except.ok.inj h)⟩

/-- C8 amended: for every occupied id other than `0`, `delete(id)`
removes exactly the record at position `id` — positions below `id` are
untouched, the record formerly at `j + 1` is reachable at `j` for every
`j ≥ id`, the old highest index falls out of range — and resolves with
the removed record's prior value.  At id `0` the removal happens too,
but the resolved value is the mutated collection. -/
theorem C8_amended (p : Persistence) (id : Nat) (el : JsVal)
    (h0 : id ≠ 0) (hel : p.data[id]? = some el) (htr : truthy el = true) :
    (p.delete id).1 = .ok el ∧
    (p.delete id).2.data = p.data.eraseIdx id ∧
    (p.delete id).2.data.length + 1 = p.data.length ∧
    (∀ j, j < id → (p.delete id).2.data[j]? = p.data[j]?) ∧
    (∀ j, id ≤ j → (p.delete id).2.data[j]? = p.data[j + 1]?) ∧
    (p.delete id).2.data[p.data.length - 1]? = none := by
  have hl := list_some_occupied p id el h0 hel htr
  have hlt : id < p.data.length := by
    rcases List.getElem?_eq_some.mp hel with ⟨h, _⟩
    exact h
  have hd : p.delete id = (.ok el, ⟨p.data.eraseIdx id, p.model⟩) := by
    simp [Persistence.delete, hl, h0]
  have hlen : (p.data.eraseIdx id).length = p.data.length - 1 := by
    rw [List.length_eraseIdx, if_pos hlt]
  have hdd : (p.delete id).2.data = p.data.eraseIdx id := by rw [hd]
  refine ⟨by simp [hd], hdd, ?_, ?_, ?_, ?_⟩
  · rw [hdd, hlen]
    omega
  · intro j hj
    rw [hdd, List.getElem?_eraseIdx, if_pos hj]
  · intro j hj
    rw [hdd, List.getElem?_eraseIdx, if_neg (by omega : ¬ j < id)]
  · rw [hdd]
    exact List.getElem?_eq_none (by omega)

/-- C8 witness: the amended statement on `[{valid:true,name:"x"},
{valid:true,name:"y"}]`, deleting id `1`. -/
theorem C8_witness :
    ((⟨[recX, recY], .null⟩ : Persistence).delete 1).1 = .ok recY ∧
    ((⟨[recX, recY], .null⟩ : Persistence).delete 1).2.data = [recX] ∧
    ((⟨[recX, recY], .null⟩ : Persistence).delete 1).2.data[0]? = some recX ∧
    ((⟨[recX, recY], .null⟩ : Persistence).delete 1).2.data[1]? = none := by
  have h := C8_amended ⟨[recX, recY], .null⟩ 1 recY (by decide) rfl rfl
  exact ⟨h.1, h.2.1, h.2.2.2.1 0 (by decide), h.2.2.2.2.2⟩

/-- Lookup in a one-step-extended field list. -/
theorem lookupF_cons (q : String × JsVal) (fs : List (String × JsVal)) (k : String) :
    lookupF (q :: fs) k = if q.1 == k then some q.2 else lookupF fs k := by
  by_cases h : q.1 = k <;> simp [lookupF, List.find?_cons, h]

/-- Lookup distributes over concatenation, first list first. -/
theorem lookupF_append (l1 l2 : List (String × JsVal)) (k : String) :
    lookupF (l1 ++ l2) k = (lookupF l1 k).or (lookupF l2 k) := by
  unfold lookupF
  rw [List.find?_append]
  cases List.find? (fun p => p.1 == k) l1 <;> simp [Option.or]

/-- A key absent from every entry looks up to nothing. -/
theorem lookupF_eq_none (fs : List (String × JsVal)) (k : String)
    (h : ∀ q ∈ fs, q.1 ≠ k) : lookupF fs k = none := by
  unfold lookupF
  rw [List.find?_eq_none.mpr]
  · rfl
  · intro q hq
    simpa using h q hq

/-- Inserting a key makes it look up to the inserted value. -/
theorem lookupF_insertField_self (fs : List (String × JsVal)) (k : String) (v : JsVal) :
    lookupF (insertField fs k v) k = some v := by
  induction fs with
  | nil => simp [insertField, lookupF_cons]
  | cons q rest ih =>
    by_cases h : q.1 = k
    · simp [insertField, h, lookupF_cons]
    · simp [insertField, h, lookupF_cons, ih]

/-- Inserting a key leaves every other key's lookup unchanged. -/
theorem lookupF_insertField_ne (fs : List (String × JsVal)) (k k2 : String) (v : JsVal)
    (h : k2 ≠ k) :
    lookupF (insertField fs k v) k2 = lookupF fs k2 := by
  have hks : ¬ k = k2 := fun hh => h hh.symm
  induction fs with
  | nil => simp [insertField, lookupF_cons, lookupF, hks]
  | cons q rest ih =>
    by_cases hq : q.1 = k
    · simp [insertField, hq, lookupF_cons, hks]
    · simp [insertField, hq, lookupF_cons, ih]

/-- Folding a field list into an accumulator by `insertField` realises
"later spread wins": a key looks up to its last binding in the spread
source, and otherwise to its binding in the accumulator. -/
theorem lookupF_foldl_insert (gs acc : List (String × JsVal)) (k : String) :
    lookupF (gs.foldl (fun a q => insertField a q.1 q.2) acc) k
      = (lookupF gs.reverse k).or (lookupF acc k) := by
  induction gs generalizing acc with
  | nil => simp [lookupF, Option.or]
  | cons q rest ih =>
    rw [List.foldl_cons, ih, List.reverse_cons, lookupF_append]
    by_cases h : q.1 = k
    · subst h
      rw [lookupF_insertField_self, Option.or_assoc]
      have h1 : lookupF [(q.1, q.2)] q.1 = some q.2 := by
        rw [lookupF_cons]
        simp
      rw [h1]
      cases lookupF acc q.1 <;> simp [Option.or]
    · rw [lookupF_insertField_ne acc q.1 k q.2 (fun hh => h hh.symm), Option.or_assoc]
      have h1 : lookupF [(q.1, q.2)] k = none := by
        rw [lookupF_cons]
        simp [lookupF, h]
      rw [h1, Option.none_or]

/-- With duplicate-free keys (every actual JavaScript object), lookup is
insensitive to reversal. -/
theorem lookupF_reverse_eq (fs : List (String × JsVal)) (k : String)
    (h : (fs.map Prod.fst).Nodup) :
    lookupF fs.reverse k = lookupF fs k := by
  induction fs with
  | nil => rfl
  | cons q rest ih =>
    rw [List.map_cons, List.nodup_cons] at h
    obtain ⟨hq, hrest⟩ := h
    rw [List.reverse_cons, lookupF_append, ih hrest, lookupF_cons]
    by_cases hk : q.1 = k
    · subst hk
      rw [lookupF_eq_none rest q.1
        (fun r hr he => hq (he ▸ List.mem_map_of_mem Prod.fst hr))]
      simp [lookupF_cons, Option.or]
    · rw [if_neg (by simpa using hk)]
      show (lookupF rest k).or none = lookupF (q :: rest) k
      rw [Option.or_none, lookupF_cons, if_neg (by simpa using hk)]

/-- The merge literal `{ ...el, ...data }` of two duplicate-free
objects: a key bound in `data` takes `data`'s value, a key bound only in
`el` keeps `el`'s value, and any other key reads `undefined`. -/
theorem getField_mergeSpread_obj (fs gs : List (String × JsVal)) (k : String)
    (hnf : (fs.map Prod.fst).Nodup) (hng : (gs.map Prod.fst).Nodup) :
    getField (mergeSpread (.obj fs) (.obj gs)) k
      = .ok (((lookupF gs k).or (lookupF fs k)).getD .undefined) := by
  have h1 : spreadInto [] (JsVal.obj fs) = fs.foldl (fun a q => insertField a q.1 q.2) [] := rfl
  have h2 : spreadInto (spreadInto [] (JsVal.obj fs)) (JsVal.obj gs)
      = gs.foldl (fun a q => insertField a q.1 q.2) (spreadInto [] (JsVal.obj fs)) := rfl
  show Except.ok ((lookupF (spreadInto (spreadInto [] (.obj fs)) (.obj gs)) k).getD .undefined) = _
  rw [h2, lookupF_foldl_insert, h1, lookupF_foldl_insert,
    lookupF_reverse_eq gs k hng, lookupF_reverse_eq fs k hnf,
    show lookupF [] k = none from rfl, Option.or_none]

/-- C6 counterexample: at the occupied id `0` of the one-record store
`[{valid:true,name:"x"}]`, `update(0, {name:"y"})` — whose claimed merge
`{valid:true,name:"y"}` passes validation — neither stores that merge
nor resolves with the previous record: it rejects with InvalidData,
because `list(0)` hands back the whole array and its spread has no
`valid` field. -/
theorem C6_counterexample :
    ((⟨[recX], .obj []⟩ : Persistence).update 0 dataY).1 = .error (.jsErr invalidDataErr) ∧
    ((⟨[recX], .obj []⟩ : Persistence).update 0 dataY).1 ≠ .ok recX ∧
    ((⟨[recX], .obj []⟩ : Persistence).update 0 dataY).2 = ⟨[recX], .obj []⟩ :=
  ⟨rfl, fun h => Except.noConfusion h, rfl⟩

/-- C6 amended: for every occupied id other than `0` (a truthy record
`el` sits at that index), `update(id, data)` merges by overlaying `el`'s
fields with `data`'s fields: when `validate` rejects the merge it
rejects with exactly that error and the store is unchanged, and when the
merge is valid it stores the merge at `id` and resolves with the
previous, pre-merge record.  When `el` and `data` are objects (with the
duplicate-free keys JavaScript objects always have), the stored merge
reads, at every key, `data`'s value if `data` binds the key, otherwise
`el`'s value if `el` binds it, otherwise `undefined` — fields in `data`
take precedence and fields only in `el` are preserved.  At id `0` the
lookup hands back the whole array (see the counterexample). -/
theorem C6_amended (p : Persistence) (id : Nat) (data el : JsVal)
    (h0 : id ≠ 0) (hel : p.data[id]? = some el) (htr : truthy el = true) :
    (∀ e, validate (mergeSpread el data) = .ok (some e) →
      p.update id data = (.error (.jsErr e), p)) ∧
    (validate (mergeSpread el data) = .ok none →
      p.update id data = (.ok el, ⟨p.data.set id (mergeSpread el data), p.model⟩)) ∧
    (∀ fs gs, el = .obj fs → data = .obj gs →
      (fs.map Prod.fst).Nodup → (gs.map Prod.fst).Nodup →
      ∀ k, getField (mergeSpread el data) k
        = .ok (((lookupF gs k).or (lookupF fs k)).getD .undefined)) := by
  have hl := list_some_occupied p id el h0 hel htr
  have hlt : id < p.data.length := by
    rcases List.getElem?_eq_some.mp hel with ⟨h, _⟩
    exact h
  refine ⟨fun e he => ?_, fun hok => ?_, ?_⟩
  · simp [Persistence.update, hl, he]
  · simp [Persistence.update, hl, hok,
      jsSet_of_lt p.data id (mergeSpread el data) hlt, h0]
  · intro fs gs hfs hgs hnf hng k
    subst hfs
    subst hgs
    exact getField_mergeSpread_obj fs gs k hnf hng

/-- C6 witness: the amended statement on `[{valid:true,name:"x"},
{a:1,valid:true}]`, updating id `1` with `{b:2,valid:true}`: the stored
merge is `{a:1,valid:true,b:2}` and the previous record is resolved. -/
theorem C6_witness :
    (⟨[recX, recA], .null⟩ : Persistence).update 1 dataB
      = (.ok recA, ⟨[recX, mergeSpread recA dataB], .null⟩) ∧
    mergeSpread recA dataB
      = .obj [("a", .num 1), ("valid", .bool true), ("b", .num 2)] ∧
    getField (mergeSpread recA dataB) "a" = .ok (.num 1) ∧
    getField (mergeSpread recA dataB) "b" = .ok (.num 2) ∧
    getField (mergeSpread recA dataB) "valid" = .ok (.bool true) := by
  have h := C6_amended ⟨[recX, recA], .null⟩ 1 dataB recA (by decide) rfl rfl
  exact ⟨h.2.1 rfl, rfl, rfl, rfl, rfl⟩

/-- A valid verdict from `validate` is exactly `recordValid`. -/
theorem recordValid_of_validate (d : JsVal) (h : validate d = .ok none) :
    recordValid d = true :=
  (recordValid_iff_validate d).mpr h

/-- Every element of an in-range overwrite, or of the assignment at the
falsy index `0`, satisfies `recordValid` if the old elements and the new
value do. -/
theorem storeValid_jsSet (l : List JsVal) (i : Nat) (v : JsVal)
    (hall : l.all recordValid = true) (hv : recordValid v = true)
    (hi : i < l.length ∨ i = 0) :
    (jsSet l i v).all recordValid = true := by
  have hset : i < l.length → (jsSet l i v).all recordValid = true := by
    intro hlt
    rw [jsSet_of_lt l i v hlt, List.all_eq_true]
    intro x hx
    rcases List.mem_or_eq_of_mem_set hx with hmem | rfl
    · exact List.all_eq_true.mp hall x hmem
    · exact hv
  rcases hi with hlt | rfl
  · exact hset hlt
  · by_cases hlt : 0 < l.length
    · exact hset hlt
    · have hnil : l = [] := List.eq_nil_of_length_eq_zero (by omega)
      subst hnil
      simp [jsSet, hv]

/-- C9: the validity invariant.  A freshly constructed store is empty,
hence valid; `create`, `update` and `replace` validate the exact value
they store before storing it, `delete` only removes, and `list` and
`validate` never touch the collection — so every record ever held in the
collection has a truthy `valid` field. -/
theorem C9_valid_invariant :
    (∀ m, storeValid (Persistence.new m) = true) ∧
    (∀ p d, storeValid p = true → storeValid (p.create d).2 = true) ∧
    (∀ p i d, storeValid p = true → storeValid (p.update i d).2 = true) ∧
    (∀ p i d, storeValid p = true → storeValid (p.replace i d).2 = true) ∧
    (∀ p i, storeValid p = true → storeValid (p.delete i).2 = true) := by
  refine ⟨fun m => rfl, fun p d hp => ?_, fun p i d hp => ?_, fun p i d hp => ?_,
    fun p i hp => ?_⟩
  · unfold Persistence.create
    cases hv : validate d with
    | error m => exact hp
    | ok o =>
      cases o with
      | some e => exact hp
      | none =>
        show (p.data ++ [d]).all recordValid = true
        rw [List.all_append]
        simp [List.all_eq_true.mp hp, recordValid_of_validate d hv,
          List.all_eq_true]
        intro x hx
        exact List.all_eq_true.mp hp x hx
  · cases hl : p.list (some i) with
    | error e =>
      have hu : (p.update i d).2 = p := by simp [Persistence.update, hl]
      rw [hu]
      exact hp
    | ok el =>
      cases hv : validate (mergeSpread el d) with
      | error m =>
        have hu : (p.update i d).2 = p := by simp [Persistence.update, hl, hv]
        rw [hu]
        exact hp
      | ok o =>
        cases o with
        | some e =>
          have hu : (p.update i d).2 = p := by simp [Persistence.update, hl, hv]
          rw [hu]
          exact hp
        | none =>
          have hu : (p.update i d).2 = ⟨jsSet p.data i (mergeSpread el d), p.model⟩ := by
            simp [Persistence.update, hl, hv]
          rw [hu]
          exact storeValid_jsSet p.data i (mergeSpread el d) hp
            (recordValid_of_validate _ hv) (list_ok_index p i el hl)
  · cases hl : p.list (some i) with
    | error e =>
      have hu : (p.replace i d).2 = p := by simp [Persistence.replace, hl]
      rw [hu]
      exact hp
    | ok el =>
      cases hv : validate d with
      | error m =>
        have hu : (p.replace i d).2 = p := by simp [Persistence.replace, hl, hv]
        rw [hu]
        exact hp
      | ok o =>
        cases o with
        | some e =>
          have hu : (p.replace i d).2 = p := by simp [Persistence.replace, hl, hv]
          rw [hu]
          exact hp
        | none =>
          have hu : (p.replace i d).2 = ⟨jsSet p.data i d, p.model⟩ := by
            simp [Persistence.replace, hl, hv]
          rw [hu]
          exact storeValid_jsSet p.data i d hp
            (recordValid_of_validate _ hv) (list_ok_index p i el hl)
  · cases hl : p.list (some i) with
    | error e =>
      have hu : (p.delete i).2 = p := by simp [Persistence.delete, hl]
      rw [hu]
      exact hp
    | ok el =>
      have hu : (p.delete i).2 = ⟨p.data.eraseIdx i, p.model⟩ := by
        simp [Persistence.delete, hl]
      rw [hu]
      show (p.data.eraseIdx i).all recordValid = true
      rw [List.all_eq_true]
      intro x hx
      exact List.all_eq_true.mp hp x (List.mem_of_mem_eraseIdx hx)

/-- C9 witness: the invariant carried along a concrete run: construct,
create `{valid:true,name:"x"}`, then update id `1` (rejected as
NotFound, store kept). -/
theorem C9_witness :
    storeValid ((((Persistence.new .null).create recX).2.update 1 dataB).2) = true :=
  C9_valid_invariant.2.2.1 ((Persistence.new .null).create recX).2 1 dataB
    (C9_valid_invariant.2.1 (Persistence.new .null) recX
      (C9_valid_invariant.1 .null))

/-- C10: `validate` applied to `null` or `undefined` does not return the
documented InvalidData value: the read of `data.valid` throws a
TypeError, so `create(null)` fails with that TypeError — not with a
status-400 error — and the store is unchanged; on any object input the
throwing branch is unreachable and `validate` is total, returning a
verdict. -/
theorem C10_validate_null_throws :
    validate .null = .error "TypeError: Cannot read properties of null" ∧
    validate .undefined = .error "TypeError: Cannot read properties of undefined" ∧
    (∀ p : Persistence, p.create .null
      = (.error (.typeErr "TypeError: Cannot read properties of null"), p)) ∧
    (∀ e : ErrObj, validate .null ≠ .ok (some e)) ∧
    (∀ fs : List (String × JsVal), ∃ r, validate (.obj fs) = .ok r) := by
  refine ⟨rfl, rfl, fun p => rfl, fun e h => Except.noConfusion h, fun fs => ?_⟩
  cases ht : truthy ((lookupF fs "valid").getD .undefined)
  · exact ⟨some invalidDataErr, by simp [validate, getField, ht]⟩
  · exact ⟨none, by simp [validate, getField, ht]⟩

/-- C10 witness: `create(null)` on a fresh store fails with the
TypeError, not with a status-400 error. -/
theorem C10_witness :
    (Persistence.new .null).create .null
      = (.error (.typeErr "TypeError: Cannot read properties of null"), Persistence.new .null) :=
  C10_validate_null_throws.2.2.1 (Persistence.new .null)
